import Mathlib

/-!
# Smart Bookmark App — client-state reconciliation, verified

Shallow embedding of the client-side bookmark store logic of the
Smart-Bookmark-App repository (Next.js + Supabase).  The logic under
verification lives in the `DashboardClient` component: the realtime
INSERT/DELETE handlers, the add/delete action handlers with their
validation, the search filter, and the subscription lifecycle of the
realtime `useEffect`.

Records carry a server-assigned identifier, owner, title, URL and
creation timestamp.  The client never computes on the timestamp beyond
ordering, so `created_at` is embedded as a natural number (the wire
format is an ISO-8601 string whose lexicographic order agrees with
time order).
-/

namespace SmartBookmark

/-- The `Bookmark` record (interface `Bookmark` in the dashboard page and
client component; table `public.bookmarks` in the migration). -/
structure Bookmark where
  id : String
  user_id : String
  title : String
  url : String
  created_at : Nat
  deriving DecidableEq, Repr

/-- The realtime INSERT handler's state update (DashboardClient):
`prev => { const exists = prev.some((b) => b.id === payload.new.id);
if (exists) return prev; return [payload.new, ...prev]; }`.
Inserts the record at the front unless an entry with the same
identifier is already present; this is the spec's `upsertIfAbsent`. -/
def upsertIfAbsent (r : Bookmark) (prev : List Bookmark) : List Bookmark :=
  if prev.any (fun b => b.id == r.id) then prev else r :: prev

/-- Removal by identifier, the core of the realtime DELETE handler:
`prev => prev.filter((b) => b.id !== payload.old.id)` for a payload that
does carry the identifier; this is the spec's `removeById`. -/
def removeById (i : String) (prev : List Bookmark) : List Bookmark :=
  prev.filter (fun b => !(b.id == i))

/-- The `payload.old` object delivered with a realtime DELETE event.
Depending on the table's replica-identity configuration the transport
may omit any of the old row's fields, so every field is optional. -/
structure DeleteEventOld where
  id : Option String
  user_id : Option String
  title : Option String
  url : Option String
  created_at : Option Nat
  deriving DecidableEq, Repr

/-- The realtime DELETE handler as written, over the full event payload:
`prev.filter((b) => b.id !== payload.old.id)`.  In JavaScript `b.id` is a
string, so when `payload.old.id` is absent (`undefined`) the comparison
`b.id !== undefined` is true for every entry and the filter keeps the
whole list. -/
def deleteHandler (old : DeleteEventOld) (prev : List Bookmark) : List Bookmark :=
  prev.filter (fun b => !(some b.id == old.id))

/-- Lower-casing used by the search filter (`String.prototype.toLowerCase`),
on the character list of a string. -/
def toLC (s : String) : List Char :=
  s.data.map Char.toLower

/-- `String.prototype.includes`: `needle` occurs as a contiguous substring
of `hay`.  The empty needle is contained in every string. -/
def containsSub (needle : List Char) : List Char → Bool
  | [] => needle.isEmpty
  | c :: t => needle.isPrefixOf (c :: t) || containsSub needle t

/-- The search filter (DashboardClient `filteredBookmarks`):
`bookmarks.filter((b) => b.title.toLowerCase().includes(search.toLowerCase())
|| b.url.toLowerCase().includes(search.toLowerCase()))`.
This is the spec's `filteredView`. -/
def filteredBookmarks (search : String) (bookmarks : List Bookmark) : List Bookmark :=
  bookmarks.filter (fun b =>
    containsSub (toLC search) (toLC b.title) || containsSub (toLC search) (toLC b.url))

/-- JS `String.prototype.trim`: strips leading and trailing whitespace.
Defined on the character list so that it reduces inside the kernel. -/
def jsTrim (s : String) : String :=
  String.mk (((s.data.dropWhile Char.isWhitespace).reverse.dropWhile
    Char.isWhitespace).reverse)

/-- JS `String.prototype.startsWith`, as a prefix test on character
lists. -/
def startsWithS (s pre : String) : Bool :=
  pre.data.isPrefixOf s.data

/-- Numeric value of a digit string (used for the port bound). -/
def digitsVal (p : List Char) : Nat :=
  p.foldl (fun n c => n * 10 + (c.toNat - '0'.toNat)) 0

/-- Forbidden host code points of the WHATWG URL standard: a host
containing any of these fails to parse. -/
def forbiddenHostChar (c : Char) : Bool :=
  c == '\x00' || c == '\t' || c == '\n' || c == '\r' || c == ' ' ||
  c == '#' || c == '/' || c == ':' || c == '<' || c == '>' ||
  c == '?' || c == '@' || c == '[' || c == '\\' || c == ']' ||
  c == '^' || c == '|'

/-- Splits a character list at the last occurrence of `ch`; `none` when
`ch` does not occur. -/
def splitAtLast (ch : Char) (l : List Char) : Option (List Char × List Char) :=
  let after := (l.reverse.takeWhile (fun c => c ≠ ch)).reverse
  if after.length = l.length then none
  else some (l.take (l.length - after.length - 1), after)

/-- A registrable host: nonempty, no forbidden host code point. -/
def hostValid (h : List Char) : Bool :=
  !h.isEmpty && h.all (fun c => !forbiddenHostChar c)

/-- A port string: decimal digits with value at most 65535; the empty
port (a trailing colon) is allowed and means the scheme default. -/
def portValid (p : List Char) : Bool :=
  p.all Char.isDigit && (p.isEmpty || digitsVal p ≤ 65535)

/-- Validity of the host[:port] part of an authority, after userinfo has
been stripped.  A leading `[` opens an IP-literal that must be closed by
`]` before an optional `:port`. -/
def hostPortValid (hp : List Char) : Bool :=
  match hp with
  | '[' :: rest =>
    let inner := rest.takeWhile (fun c => c ≠ ']')
    (match rest.drop inner.length with
     | ']' :: tail =>
       !inner.isEmpty &&
         (tail.isEmpty ||
           (tail.head? == some ':' && portValid tail.tail))
     | _ => false)
  | _ =>
    match splitAtLast ':' hp with
    | none => hostValid hp
    | some (h, p) => hostValid h && portValid p

/-- Validity of a full authority component: optional userinfo up to the
last `@`, followed by host[:port]. -/
def authorityValid (a : List Char) : Bool :=
  match splitAtLast '@' a with
  | none => hostPortValid a
  | some (_, hp) => hostPortValid hp

/-- Modelled from the platform, not from repository code: the WHATWG
`URL` constructor combined with the protocol check of the component's
`isValidUrl` helper (`new URL(str)` succeeds and `urlObj.protocol` is
`"http:"` or `"https:"`).  The model covers inputs produced by the
handler's normalization, which always begin with `http://` or
`https://`: the authority runs to the first `/`, `\\`, `?` or `#`, an
IP-literal or host must be nonempty and free of forbidden code points,
and a present port must be decimal and fit in 16 bits (so
`https://javascript:alert(1)` fails on its non-numeric port, exactly as
the platform parser does).  Inputs with any other scheme either fail to
parse or fail the protocol comparison; both yield `false`. -/
def isValidUrl (str : String) : Bool :=
  let cs := str.data
  let authorityOf := fun (rest : List Char) =>
    rest.takeWhile (fun c => c ≠ '/' && c ≠ '\\' && c ≠ '?' && c ≠ '#')
  if "http://".data.isPrefixOf cs then authorityValid (authorityOf (cs.drop 7))
  else if "https://".data.isPrefixOf cs then authorityValid (authorityOf (cs.drop 8))
  else false

/-- The handler's URL normalization: trim, then prefix `https://` unless
the input already starts with `http://` or `https://`. -/
def normalizeUrl (url : String) : String :=
  let t := jsTrim url
  if startsWithS t "http://" || startsWithS t "https://" then t
  else "https://" ++ t

/-- Toast notification kind (`"success" | "error"`). -/
inductive ToastType where
  | success
  | error
  deriving DecidableEq, Repr

/-- A transient toast notification (`{ message, type }`). -/
structure Toast where
  message : String
  type : ToastType
  deriving DecidableEq, Repr

/-- A request issued to the remote store (Supabase `insert` / `delete`). -/
inductive RemoteCall where
  | insert (title url user_id : String)
  | delete (id : String)
  deriving DecidableEq, Repr

/-- A cross-tab broadcast message in the spec's wire shape
(`{kind: "added", record}` / `{kind: "removed", id}`). -/
inductive BroadcastMsg where
  | added (record : Bookmark)
  | removed (id : String)
  deriving DecidableEq, Repr

/-- The component state read by `handleAddBookmark`: the bookmark list
and the two form fields. -/
structure AddFormState where
  bookmarks : List Bookmark
  title : String
  url : String
  deriving DecidableEq, Repr

/-- The observable outcome of an action handler: the new component
state, the toast it raised, the remote requests it issued and the
broadcast messages it published. -/
structure HandlerResult where
  bookmarks : List Bookmark
  title : String
  url : String
  toast : Option Toast
  remoteCalls : List RemoteCall
  broadcasts : List BroadcastMsg
  deriving DecidableEq, Repr

/-- The `handleAddBookmark` action handler.  Validation: an empty
trimmed title, or a normalized address rejected by `isValidUrl`, raises
an error toast and issues no remote call.  Otherwise exactly one remote
insert is issued; `remoteError` is that call's outcome.  On failure the
handler raises an error toast; on success it raises a success toast and
clears the form fields.  In every branch the bookmark list is left
untouched (there is no optimistic local update) and no broadcast
message is published. -/
def handleAddBookmark (userId : String) (st : AddFormState) (remoteError : Bool) :
    HandlerResult :=
  if jsTrim st.title = "" then
    { bookmarks := st.bookmarks, title := st.title, url := st.url,
      toast := some ⟨"Please enter a title", .error⟩,
      remoteCalls := [], broadcasts := [] }
  else
    let finalUrl := normalizeUrl st.url
    if !isValidUrl finalUrl then
      { bookmarks := st.bookmarks, title := st.title, url := st.url,
        toast := some ⟨"Please enter a valid URL", .error⟩,
        remoteCalls := [], broadcasts := [] }
    else if remoteError then
      { bookmarks := st.bookmarks, title := st.title, url := st.url,
        toast := some ⟨"Failed to add bookmark", .error⟩,
        remoteCalls := [.insert (jsTrim st.title) finalUrl userId], broadcasts := [] }
    else
      { bookmarks := st.bookmarks, title := "", url := "",
        toast := some ⟨"Bookmark added!", .success⟩,
        remoteCalls := [.insert (jsTrim st.title) finalUrl userId], broadcasts := [] }

/-- The `handleDeleteBookmark` action handler: issues exactly one remote
delete for the given identifier and raises a toast according to the
outcome; the local bookmark list is untouched in both branches (removal
is left to the realtime DELETE echo) and nothing is broadcast. -/
def handleDeleteBookmark (id : String) (bookmarks : List Bookmark) (remoteError : Bool) :
    HandlerResult :=
  if remoteError then
    { bookmarks := bookmarks, title := "", url := "",
      toast := some ⟨"Failed to delete bookmark", .error⟩,
      remoteCalls := [.delete id], broadcasts := [] }
  else
    { bookmarks := bookmarks, title := "", url := "",
      toast := some ⟨"Bookmark deleted", .success⟩,
      remoteCalls := [.delete id], broadcasts := [] }

/-- Kind of background listener a session may hold. -/
inductive SubscriptionKind where
  | serverPush
  | crossTabBroadcast
  deriving DecidableEq, Repr

/-- A subscription handle: its kind and channel name. -/
structure ChannelSub where
  kind : SubscriptionKind
  channelName : String
  deriving DecidableEq, Repr

/-- Subscriptions opened by the realtime `useEffect` at mount (session
start): one Supabase channel, `"bookmarks-realtime"`, carrying the
postgres_changes INSERT and DELETE listeners.  No BroadcastChannel is
opened anywhere in the component. -/
def mountSubscriptions : List ChannelSub :=
  [⟨.serverPush, "bookmarks-realtime"⟩]

/-- The effect's cleanup function
(`return () => { supabase.removeChannel(channel); }`): the
subscriptions released when the view unmounts. -/
def unmountReleases : List ChannelSub :=
  [⟨.serverPush, "bookmarks-realtime"⟩]

/-- A sequence of insert arrivals applied to the store in order, each
through the single merge primitive `upsertIfAbsent`. -/
def applyInserts (l : List Bookmark) (s : List Bookmark) : List Bookmark :=
  l.foldl (fun st r => upsertIfAbsent r st) s

/-- Creation-timestamp-descending order (newest first), the store's
canonical display order. -/
def sortedDesc (l : List Bookmark) : Prop :=
  l.Pairwise (fun a b => b.created_at ≤ a.created_at)

instance : DecidablePred sortedDesc := fun l =>
  List.instDecidablePairwise l

/-! ## Helper lemmas -/

/-- The empty needle is contained in every haystack. -/
theorem containsSub_nil (h : List Char) : containsSub [] h = true := by
  cases h <;> simp [containsSub, List.isPrefixOf]

/-- The substring check agrees with list infixes. -/
theorem containsSub_iff_infix (n h : List Char) :
    containsSub n h = true ↔ n <:+: h := by
  induction h with
  | nil =>
    simp only [containsSub, List.isEmpty_iff]
    exact ⟨fun hn => hn ▸ List.infix_rfl, fun hn => List.eq_nil_of_infix_nil hn⟩
  | cons c t ih =>
    simp [containsSub, List.infix_cons_iff, ih, Bool.or_eq_true]

/-- When an entry with the record's identifier is already present, the
merge is a no-op. -/
theorem upsertIfAbsent_of_present {r : Bookmark} {s : List Bookmark}
    (h : ∃ b ∈ s, b.id = r.id) : upsertIfAbsent r s = s := by
  have : s.any (fun b => b.id == r.id) = true := by
    rcases h with ⟨b, hb, hid⟩
    exact List.any_eq_true.2 ⟨b, hb, by simp [hid]⟩
  simp [upsertIfAbsent, this]

/-- When no entry with the record's identifier is present, the merge
prepends the record. -/
theorem upsertIfAbsent_of_absent {r : Bookmark} {s : List Bookmark}
    (h : ∀ b ∈ s, b.id ≠ r.id) : upsertIfAbsent r s = r :: s := by
  have : s.any (fun b => b.id == r.id) = false := by
    simp only [List.any_eq_false]
    intro b hb
    simp [h b hb]
  simp [upsertIfAbsent, this]

/-- Once an entry with the shared identifier is in the store, any
further sequence of same-identifier inserts is a no-op. -/
theorem applyInserts_of_present {i : String} {l : List Bookmark}
    (hl : ∀ x ∈ l, x.id = i) {s : List Bookmark} (hs : ∃ b ∈ s, b.id = i) :
    applyInserts l s = s := by
  induction l generalizing s with
  | nil => rfl
  | cons r t ih =>
    have hr : r.id = i := hl r (List.mem_cons_self r t)
    have hstep : upsertIfAbsent r s = s :=
      upsertIfAbsent_of_present (by rcases hs with ⟨b, hb, hid⟩; exact ⟨b, hb, by rw [hid, hr]⟩)
    have : applyInserts (r :: t) s = applyInserts t (upsertIfAbsent r s) := rfl
    rw [this, hstep]
    exact ih (fun x hx => hl x (List.mem_cons_of_mem r hx)) hs

/-- Idempotence of removal: filtering twice with the same identifier
filters once. -/
theorem removeById_idem (i : String) (s : List Bookmark) :
    removeById i (removeById i s) = removeById i s := by
  simp [removeById, List.filter_filter]

/-- The empty query matches every record, so the filter returns the
whole store in its canonical order. -/
theorem filteredBookmarks_empty_query (s : List Bookmark) :
    filteredBookmarks "" s = s := by
  have hempty : toLC "" = [] := rfl
  apply List.filter_eq_self.2
  intro b _
  simp [hempty, containsSub_nil]

/-! ## Claims -/

/-- C5.  `filteredView` with the empty query returns the whole store in
canonical order; with any query it returns exactly the subsequence
(order preserved) of records whose title or URL contains the query as a
case-insensitive substring. -/
theorem C5_filteredView (q : String) (s : List Bookmark) :
    filteredBookmarks "" s = s ∧
    (filteredBookmarks q s).Sublist s ∧
    (∀ b, b ∈ filteredBookmarks q s ↔
      b ∈ s ∧ (toLC q <:+: toLC b.title ∨ toLC q <:+: toLC b.url)) := by
  refine ⟨filteredBookmarks_empty_query s, List.filter_sublist s, ?_⟩
  intro b
  simp [filteredBookmarks, List.mem_filter, containsSub_iff_infix, Bool.or_eq_true]

/-- C6.  `removeById` removes the entry with the given identifier when
present, is a no-op when absent, and repeating it any number of times
leaves the store unchanged (it is a total function: no error). -/
theorem C6_removeById (i : String) (s : List Bookmark) :
    (∀ b ∈ removeById i s, b.id ≠ i) ∧
    ((∀ b ∈ s, b.id ≠ i) → removeById i s = s) ∧
    (∀ n : Nat, (removeById i)^[n] (removeById i s) = removeById i s) := by
  refine ⟨?_, ?_, ?_⟩
  · intro b hb
    have := List.of_mem_filter hb
    simpa using this
  · intro h
    apply List.filter_eq_self.2
    intro b hb
    simp [h b hb]
  · intro n
    induction n with
    | zero => rfl
    | succ m ih =>
      rw [Function.iterate_succ_apply, removeById_idem, ih]

/-- C6 witness: removing identifier `"x"` from a store not containing
it is a no-op, and iterating removal is stable. -/
theorem C6_removeById_witness :
    removeById "x" [⟨"a", "u", "t", "https://a", 1⟩] = [⟨"a", "u", "t", "https://a", 1⟩] ∧
    (removeById "x")^[3] (removeById "x" [⟨"a", "u", "t", "https://a", 1⟩]) =
      removeById "x" [⟨"a", "u", "t", "https://a", 1⟩] := by
  have h := C6_removeById "x" [⟨"a", "u", "t", "https://a", 1⟩]
  exact ⟨h.2.1 (by decide), h.2.2 3⟩

/-- C9.  The realtime DELETE handler depends on no field of the event
payload other than the identifier: events agreeing on the identifier
have identical effect, and an event with no identifier leaves the store
unchanged rather than raising an error. -/
theorem C9_delete_depends_only_on_id (e₁ e₂ : DeleteEventOld) (s : List Bookmark) :
    (e₁.id = e₂.id → deleteHandler e₁ s = deleteHandler e₂ s) ∧
    (e₁.id = none → deleteHandler e₁ s = s) := by
  constructor
  · intro h
    simp [deleteHandler, h]
  · intro h
    apply List.filter_eq_self.2
    intro b _
    simp [h]

/-- C9 witness: two concrete deletion events with the same identifier
but different old-row payloads act identically, and an identifier-less
event is a no-op, on a concrete store. -/
theorem C9_delete_depends_only_on_id_witness :
    deleteHandler ⟨some "a", some "u", some "t", none, none⟩
        [⟨"a", "u", "t", "https://a", 1⟩, ⟨"b", "u", "t2", "https://b", 2⟩] =
      deleteHandler ⟨some "a", none, none, none, some 99⟩
        [⟨"a", "u", "t", "https://a", 1⟩, ⟨"b", "u", "t2", "https://b", 2⟩] ∧
    deleteHandler ⟨none, none, none, none, none⟩
        [⟨"a", "u", "t", "https://a", 1⟩] = [⟨"a", "u", "t", "https://a", 1⟩] := by
  have h₁ := C9_delete_depends_only_on_id
    ⟨some "a", some "u", some "t", none, none⟩
    ⟨some "a", none, none, none, some 99⟩
    [⟨"a", "u", "t", "https://a", 1⟩, ⟨"b", "u", "t2", "https://b", 2⟩]
  have h₂ := C9_delete_depends_only_on_id
    ⟨none, none, none, none, none⟩
    ⟨none, none, none, none, none⟩
    [⟨"a", "u", "t", "https://a", 1⟩]
  exact ⟨h₁.1 rfl, h₂.2 rfl⟩

/-- C10.  Frame preservation: an insert leaves every pre-existing entry
and their relative order unchanged (the old store is a suffix of the new
one), and removal keeps exactly the entries with a different identifier,
in their original relative order. -/
theorem C10_frame (r : Bookmark) (i : String) (s : List Bookmark) :
    s.IsSuffix (upsertIfAbsent r s) ∧
    (removeById i s).Sublist s ∧
    (∀ b ∈ s, b.id ≠ i → b ∈ removeById i s) ∧
    (∀ b ∈ removeById i s, b ∈ s) := by
  refine ⟨?_, List.filter_sublist s, ?_, ?_⟩
  · by_cases h : ∃ b ∈ s, b.id = r.id
    · rw [upsertIfAbsent_of_present h]
    · push_neg at h
      rw [upsertIfAbsent_of_absent h]
      exact List.suffix_cons r s
  · intro b hb hne
    exact List.mem_filter.2 ⟨hb, by simp [hne]⟩
  · intro b hb
    exact List.mem_of_mem_filter hb

/-- C1 counterexample: two merge-insert calls carrying the same
identifier `"x"` but different payloads are applied in the two possible
orders (a transposition, hence the same multiset of calls); the final
stores differ, so the final state is not independent of the arrival
order once payloads may differ. -/
theorem C1_counterexample :
    (Bookmark.id ⟨"x", "u", "t1", "https://1", 1⟩ = "x") ∧
    (Bookmark.id ⟨"x", "u", "t2", "https://2", 2⟩ = "x") ∧
    List.Perm
      [(⟨"x", "u", "t1", "https://1", 1⟩ : Bookmark), ⟨"x", "u", "t2", "https://2", 2⟩]
      [⟨"x", "u", "t2", "https://2", 2⟩, ⟨"x", "u", "t1", "https://1", 1⟩] ∧
    applyInserts
        [⟨"x", "u", "t1", "https://1", 1⟩, ⟨"x", "u", "t2", "https://2", 2⟩] [] ≠
      applyInserts
        [⟨"x", "u", "t2", "https://2", 2⟩, ⟨"x", "u", "t1", "https://1", 1⟩] [] := by
  refine ⟨rfl, rfl, List.Perm.swap _ _ _, by decide⟩

/-- C1 (amended).  A nonempty sequence of merge-inserts all carrying one
identifier, applied to a store free of that identifier, leaves exactly
one entry with it, whose content is the first applied call; and when the
calls all carry the same record — as when one creation event arrives via
the different arrival paths — the final store is independent of the
arrival order. -/
theorem C1_upsert_first_wins (r : Bookmark) (rest : List Bookmark) (s : List Bookmark)
    (hrest : ∀ x ∈ rest, x.id = r.id) (hs : ∀ b ∈ s, b.id ≠ r.id) :
    applyInserts (r :: rest) s = r :: s ∧
    (applyInserts (r :: rest) s).countP (fun b => b.id == r.id) = 1 ∧
    (∀ l, (∀ x ∈ l, x = r) → l ≠ [] →
      applyInserts l s = applyInserts (r :: rest) s) := by
  have hmain : applyInserts (r :: rest) s = r :: s := by
    have hstep : applyInserts (r :: rest) s = applyInserts rest (upsertIfAbsent r s) := rfl
    rw [hstep, upsertIfAbsent_of_absent hs]
    exact applyInserts_of_present hrest ⟨r, List.mem_cons_self r s, rfl⟩
  refine ⟨hmain, ?_, ?_⟩
  · rw [hmain, List.countP_cons]
    have hz : s.countP (fun b => b.id == r.id) = 0 := by
      apply List.countP_eq_zero.2
      intro b hb
      simp [hs b hb]
    simp [hz]
  · intro l hall hne
    rw [hmain]
    match l, hne with
    | x :: t, _ =>
      have hx : x = r := hall x (List.mem_cons_self x t)
      have hstep : applyInserts (x :: t) s = applyInserts t (upsertIfAbsent x s) := rfl
      rw [hstep, hx, upsertIfAbsent_of_absent hs]
      exact applyInserts_of_present
        (fun y hy => by rw [hall y (List.mem_cons_of_mem x hy)])
        ⟨r, List.mem_cons_self r s, rfl⟩

/-- C1 witness: the amended theorem applied to two concrete calls with
identifier `"z"` on the empty store. -/
theorem C1_upsert_first_wins_witness :
    applyInserts
        [(⟨"z", "u", "t1", "https://1", 1⟩ : Bookmark), ⟨"z", "u", "t2", "https://2", 2⟩] [] =
      [⟨"z", "u", "t1", "https://1", 1⟩] ∧
    (applyInserts
        [(⟨"z", "u", "t1", "https://1", 1⟩ : Bookmark), ⟨"z", "u", "t2", "https://2", 2⟩]
        []).countP (fun b => b.id == "z") = 1 := by
  have h := C1_upsert_first_wins ⟨"z", "u", "t1", "https://1", 1⟩
    [⟨"z", "u", "t2", "https://2", 2⟩] [] (by decide) (by decide)
  exact ⟨h.1, h.2.1⟩

/-- C2 counterexample: the INSERT handler prepends rather than
re-sorting, so merging a record older than the store head leaves the
displayed list out of creation-descending order. -/
theorem C2_counterexample :
    sortedDesc [⟨"B", "u", "b", "https://b", 20⟩, ⟨"A", "u", "a", "https://a", 10⟩] ∧
    upsertIfAbsent ⟨"C", "u", "c", "https://c", 5⟩
        [⟨"B", "u", "b", "https://b", 20⟩, ⟨"A", "u", "a", "https://a", 10⟩] =
      [⟨"C", "u", "c", "https://c", 5⟩, ⟨"B", "u", "b", "https://b", 20⟩,
        ⟨"A", "u", "a", "https://a", 10⟩] ∧
    ¬ sortedDesc [⟨"C", "u", "c", "https://c", 5⟩, ⟨"B", "u", "b", "https://b", 20⟩,
        ⟨"A", "u", "a", "https://a", 10⟩] := by
  refine ⟨by decide, by decide, by decide⟩

/-- C2 (amended).  The store order is maintained incrementally, not
recomputed: an insert prepends and preserves creation-descending order
exactly when the new record is at least as new as every existing entry,
removal always preserves the order, and the concrete scenario
A(ts=10), B(ts=20), insert C(ts=30), unfiltered view, yields [C, B, A]. -/
theorem C2_order_maintained (s : List Bookmark) (r : Bookmark) (i : String)
    (hs : sortedDesc s) :
    ((∀ b ∈ s, b.created_at ≤ r.created_at) → sortedDesc (upsertIfAbsent r s)) ∧
    sortedDesc (removeById i s) ∧
    applyInserts [⟨"C", "u", "c", "https://c", 30⟩]
        [⟨"B", "u", "b", "https://b", 20⟩, ⟨"A", "u", "a", "https://a", 10⟩] =
      [⟨"C", "u", "c", "https://c", 30⟩, ⟨"B", "u", "b", "https://b", 20⟩,
        ⟨"A", "u", "a", "https://a", 10⟩] ∧
    filteredBookmarks ""
        [⟨"C", "u", "c", "https://c", 30⟩, ⟨"B", "u", "b", "https://b", 20⟩,
          ⟨"A", "u", "a", "https://a", 10⟩] =
      [⟨"C", "u", "c", "https://c", 30⟩, ⟨"B", "u", "b", "https://b", 20⟩,
        ⟨"A", "u", "a", "https://a", 10⟩] := by
  refine ⟨?_, ?_, by decide, filteredBookmarks_empty_query _⟩
  · intro hle
    by_cases h : ∃ b ∈ s, b.id = r.id
    · rw [upsertIfAbsent_of_present h]
      exact hs
    · push_neg at h
      rw [upsertIfAbsent_of_absent h]
      exact List.Pairwise.cons (fun b hb => hle b hb) hs
  · exact hs.filter _

/-- C2 witness: the amended theorem applied to the concrete sorted store
[B(ts=20), A(ts=10)] with the newest record C(ts=30) and removal of
identifier `"A"`. -/
theorem C2_order_maintained_witness :
    sortedDesc (upsertIfAbsent ⟨"C", "u", "c", "https://c", 30⟩
      [⟨"B", "u", "b", "https://b", 20⟩, ⟨"A", "u", "a", "https://a", 10⟩]) ∧
    sortedDesc (removeById "A"
      [⟨"B", "u", "b", "https://b", 20⟩, ⟨"A", "u", "a", "https://a", 10⟩]) := by
  have h := C2_order_maintained
    [⟨"B", "u", "b", "https://b", 20⟩, ⟨"A", "u", "a", "https://a", 10⟩]
    ⟨"C", "u", "c", "https://c", 30⟩ "A" (by decide)
  exact ⟨h.1 (by decide), h.2.1⟩

/-- C4.  The add handler raises a validation error and skips the remote
store exactly when the trimmed title is empty or the normalized address
is not a valid absolute http/https URL; in particular the address
`javascript:alert(1)` fails validation and no remote insert is issued. -/
theorem C4_validation (userId : String) (st : AddFormState) (remoteError : Bool) :
    ((handleAddBookmark userId st remoteError).remoteCalls = [] ↔
      (jsTrim st.title = "" ∨ isValidUrl (normalizeUrl st.url) = false)) ∧
    ((handleAddBookmark userId st remoteError).remoteCalls = [] ↔
      ((handleAddBookmark userId st remoteError).toast =
          some ⟨"Please enter a title", ToastType.error⟩ ∨
        (handleAddBookmark userId st remoteError).toast =
          some ⟨"Please enter a valid URL", ToastType.error⟩)) ∧
    (handleAddBookmark "u1" ⟨[], "T", "javascript:alert(1)"⟩ false).remoteCalls = [] ∧
    (handleAddBookmark "u1" ⟨[], "T", "javascript:alert(1)"⟩ false).toast =
      some ⟨"Please enter a valid URL", ToastType.error⟩ := by
  refine ⟨?_, ?_, by decide, by decide⟩ <;>
  · by_cases h₁ : jsTrim st.title = ""
    · simp [handleAddBookmark, h₁]
    · by_cases h₂ : isValidUrl (normalizeUrl st.url) = true
      · cases remoteError <;> simp [handleAddBookmark, h₁, h₂]
      · simp only [Bool.not_eq_true] at h₂
        simp [handleAddBookmark, h₁, h₂]

/-- C7.  When the remote call of an add or delete fails, the handler
surfaces an error toast, leaves the bookmark list unchanged, and issues
no further remote request (exactly one call, no retry). -/
theorem C7_persistence_error (userId : String) (st : AddFormState)
    (i : String) (s : List Bookmark) :
    (handleAddBookmark userId st true).bookmarks = st.bookmarks ∧
    (handleAddBookmark userId st true).remoteCalls.length ≤ 1 ∧
    (jsTrim st.title ≠ "" → isValidUrl (normalizeUrl st.url) = true →
      (handleAddBookmark userId st true).toast =
          some ⟨"Failed to add bookmark", ToastType.error⟩ ∧
        (handleAddBookmark userId st true).title = st.title ∧
        (handleAddBookmark userId st true).url = st.url ∧
        (handleAddBookmark userId st true).remoteCalls.length = 1) ∧
    (handleDeleteBookmark i s true).bookmarks = s ∧
    (handleDeleteBookmark i s true).toast =
      some ⟨"Failed to delete bookmark", ToastType.error⟩ ∧
    (handleDeleteBookmark i s true).remoteCalls = [RemoteCall.delete i] := by
  refine ⟨?_, ?_, ?_, ?_, ?_, ?_⟩
  · by_cases h₁ : jsTrim st.title = "" <;>
      by_cases h₂ : isValidUrl (normalizeUrl st.url) = true <;>
      simp [handleAddBookmark, h₁, h₂]
  · by_cases h₁ : jsTrim st.title = "" <;>
      by_cases h₂ : isValidUrl (normalizeUrl st.url) = true <;>
      simp [handleAddBookmark, h₁, h₂]
  · intro h₁ h₂
    simp [handleAddBookmark, h₁, h₂]
  · simp [handleDeleteBookmark]
  · simp [handleDeleteBookmark]
  · simp [handleDeleteBookmark]

/-- C7 witness: a failed remote insert for a concrete valid form and a
failed remote delete on a concrete store. -/
theorem C7_persistence_error_witness :
    (handleAddBookmark "u1" ⟨[⟨"a", "u1", "t", "https://a", 1⟩], "T", "example.com"⟩
        true).bookmarks = [⟨"a", "u1", "t", "https://a", 1⟩] ∧
    (handleAddBookmark "u1" ⟨[⟨"a", "u1", "t", "https://a", 1⟩], "T", "example.com"⟩
        true).toast = some ⟨"Failed to add bookmark", ToastType.error⟩ ∧
    (handleDeleteBookmark "a" [⟨"a", "u1", "t", "https://a", 1⟩] true).bookmarks =
      [⟨"a", "u1", "t", "https://a", 1⟩] := by
  have h := C7_persistence_error "u1"
    ⟨[⟨"a", "u1", "t", "https://a", 1⟩], "T", "example.com"⟩
    "a" [⟨"a", "u1", "t", "https://a", 1⟩]
  exact ⟨h.1, (h.2.2.1 (by decide) (by decide)).1, h.2.2.2.1⟩

/-- C3.  Code divergence: a successful local add raises the success
toast yet leaves the bookmark list untouched (no optimistic
`upsertIfAbsent`) and publishes no broadcast message; propagation relies
entirely on the server push echo. -/
theorem C3_no_optimistic_update_no_broadcast :
    (handleAddBookmark "u1"
        ⟨[⟨"a", "u1", "t", "https://a", 1⟩], "New", "example.com"⟩ false).toast =
      some ⟨"Bookmark added!", ToastType.success⟩ ∧
    (handleAddBookmark "u1"
        ⟨[⟨"a", "u1", "t", "https://a", 1⟩], "New", "example.com"⟩ false).bookmarks =
      [⟨"a", "u1", "t", "https://a", 1⟩] ∧
    (handleAddBookmark "u1"
        ⟨[⟨"a", "u1", "t", "https://a", 1⟩], "New", "example.com"⟩ false).broadcasts =
      [] := by
  decide

/-- C8 counterexample: the subscriptions opened by the realtime effect
at session start include no cross-tab broadcast subscription — only the
single server push channel exists. -/
theorem C8_counterexample :
    mountSubscriptions.filter
        (fun c => c.kind == SubscriptionKind.crossTabBroadcast) = [] ∧
    mountSubscriptions.map ChannelSub.kind = [SubscriptionKind.serverPush] := by
  decide

/-- C8 (amended).  The single subscription opened at session start — the
server push channel `"bookmarks-realtime"` — is exactly what the unmount
cleanup releases, so no listener opened during initialization outlives
the session. -/
theorem C8_teardown :
    unmountReleases = mountSubscriptions ∧
    mountSubscriptions = [⟨SubscriptionKind.serverPush, "bookmarks-realtime"⟩] := by
  decide

/-- C10 witness: inserting a fresh record keeps the old store as a
suffix, and removal keeps the unrelated concrete entry. -/
theorem C10_frame_witness :
    [(⟨"a", "u", "t", "https://a", 1⟩ : Bookmark)].IsSuffix
      (upsertIfAbsent ⟨"b", "u", "t2", "https://b", 2⟩ [⟨"a", "u", "t", "https://a", 1⟩]) ∧
    (⟨"a", "u", "t", "https://a", 1⟩ : Bookmark) ∈
      removeById "b" [⟨"a", "u", "t", "https://a", 1⟩] := by
  have h := C10_frame ⟨"b", "u", "t2", "https://b", 2⟩ "b" [⟨"a", "u", "t", "https://a", 1⟩]
  exact ⟨h.1, h.2.2.1 _ (List.mem_singleton_self _) (by decide)⟩

end SmartBookmark
